import Mathlib

/-!
Verification development for the astro-routify request-routing engine.

The definitions below are a shallow embedding, translated from the TypeScript
sources under `src/core/`:
  * `RouteTrie.ts`      — trie construction (`insert`) and lookup (`find`/`matchNode`);
  * `defineRouter.ts`   — base-path stripping, 404/405 selection, middleware chain
                          execution and the dispatch-boundary error handling;
  * `defineHandler.ts`  — the outer error boundary converting uncaught errors to 500;
  * `responseHelpers.ts`— `notFound`/`methodNotAllowed`/`internalError`/`toAstroResponse`
                          (restricted to the string-or-absent body fragment the
                          dispatcher itself produces);
  * `defineRoute.ts`    — `validateRoute`;
  * `defineGroup.ts` and `RouterBuilder.ts` — group/global middleware composition;
  * `stream.ts` and `internal/createJsonStreamRoute.ts` — the streaming writers.

JavaScript `Map` objects are modelled as association lists in insertion order
(`Map.get` = first-key lookup, `Map.set` = replace-in-place-or-append), plain
objects used as string-keyed records likewise.  Mutation in the sources is
modelled by explicit state passing.  Machine strings are Lean `String`s;
the sources index strings by UTF-16 code units while Lean counts characters,
which agrees on all inputs considered here.
-/

namespace AstroRoutify

/-- HTTP methods, from the `HttpMethod` enum in `HttpMethod.ts`. -/
inductive HttpMethod where
  | GET | POST | PUT | DELETE | PATCH | OPTIONS
  deriving DecidableEq, Repr

/-- String value of a method, as the TS enum members are string-valued. -/
def HttpMethod.toStr : HttpMethod → String
  | .GET => "GET"
  | .POST => "POST"
  | .PUT => "PUT"
  | .DELETE => "DELETE"
  | .PATCH => "PATCH"
  | .OPTIONS => "OPTIONS"

/-- A route as stored in the trie: `defineRoute.ts` records method and path
(the handler and middleware list play no role in trie matching and are
modelled separately for the dispatch pipeline). -/
structure Route where
  method : HttpMethod
  path : String
  deriving DecidableEq, Repr

/-- The dynamic (unchecked) view of the argument `RouteTrie.insert` receives:
`path := none` models a route object whose `path` field is not a string. -/
structure DynRoute where
  method : HttpMethod
  path : Option String
  deriving DecidableEq, Repr

/-- Decidable equality for `Except` values (used to evaluate claims about
fallible operations on concrete inputs). -/
instance exceptDecEq {ε α : Type} [DecidableEq ε] [DecidableEq α] :
    DecidableEq (Except ε α) := fun x y =>
  match x, y with
  | .error a, .error b =>
      if h : a = b then .isTrue (h ▸ rfl)
      else .isFalse (fun hc => h (by injection hc))
  | .error _, .ok _ => .isFalse (fun hc => Except.noConfusion hc)
  | .ok _, .error _ => .isFalse (fun hc => Except.noConfusion hc)
  | .ok a, .ok b =>
      if h : a = b then .isTrue (h ▸ rfl)
      else .isFalse (fun hc => h (by injection hc))

/-- Lookup in an association list: first binding wins, as for `Map.get`. -/
def lookupAssoc {α β : Type} [DecidableEq α] : List (α × β) → α → Option β
  | [], _ => none
  | (k, v) :: rest, key => if k = key then some v else lookupAssoc rest key

/-- `Map.set` / JS property assignment: replace the value at an existing key in
place (keeping its position) or append a fresh binding at the end. -/
def setAssoc {α β : Type} [DecidableEq α] : List (α × β) → α → β → List (α × β)
  | [], key, val => [(key, val)]
  | (k, v) :: rest, key, val =>
      if k = key then (k, val) :: rest else (k, v) :: setAssoc rest key val

/-- Route entry stored at a trie node: the route plus the depth-to-name side
table collected during insertion (`RouteInfo` in `RouteTrie.ts`). -/
structure RouteInfo where
  route : Route
  paramNames : List (Nat × String)
  deriving DecidableEq, Repr

/-- A trie node (`TrieNode` in `RouteTrie.ts`).  The regex children are
`(pattern source, parameter name, child)` triples kept in the order the JS
array holds them (descending pattern length after each insertion's sort). -/
inductive TrieNode where
  | mk (children : List (String × TrieNode))
       (regexChildren : List (String × String × TrieNode))
       (paramChild : Option TrieNode)
       (wildcardChild : Option TrieNode)
       (catchAllChild : Option TrieNode)
       (routes : List (HttpMethod × RouteInfo))

def TrieNode.children : TrieNode → List (String × TrieNode)
  | .mk c _ _ _ _ _ => c

def TrieNode.regexChildren : TrieNode → List (String × String × TrieNode)
  | .mk _ r _ _ _ _ => r

def TrieNode.paramChild : TrieNode → Option TrieNode
  | .mk _ _ p _ _ _ => p

def TrieNode.wildcardChild : TrieNode → Option TrieNode
  | .mk _ _ _ w _ _ => w

def TrieNode.catchAllChild : TrieNode → Option TrieNode
  | .mk _ _ _ _ ca _ => ca

def TrieNode.routes : TrieNode → List (HttpMethod × RouteInfo)
  | .mk _ _ _ _ _ r => r

/-- A freshly allocated node: `{ children: new Map(), routes: new Map() }`. -/
def emptyNode : TrieNode := .mk [] [] none none none []

/-- Model of `String.prototype.startsWith`. -/
def startsWithStr (s pre : String) : Bool := pre.toList.isPrefixOf s.toList

/-- Model of `String.prototype.endsWith`. -/
def endsWithStr (s suf : String) : Bool := suf.toList.isSuffixOf s.toList

/-- Does `sub` occur as a contiguous run inside `l`? -/
def isInfixList (sub : List Char) : List Char → Bool
  | [] => sub.isEmpty
  | a :: rest => sub.isPrefixOf (a :: rest) || isInfixList sub rest

/-- Model of `String.prototype.includes`. -/
def includesStr (s sub : String) : Bool := isInfixList sub.toList s.toList

/-- Model of `String.prototype.split('/')` on character lists: cut at every
slash, keeping empty pieces. -/
def splitSlash : List Char → List (List Char)
  | [] => [[]]
  | c :: rest =>
      if c = '/' then [] :: splitSlash rest
      else
        match splitSlash rest with
        | [] => [[c]]
        | piece :: pieces => (c :: piece) :: pieces

/-- Splits a path on `/` and drops empty segments
(`path.split('/').filter(Boolean)` in `RouteTrie.segmentize`). -/
def segmentize (path : String) : List String :=
  ((splitSlash path.toList).map String.mk).filter (fun s => s ≠ "")

/-- A character matched by the `[a-zA-Z0-9_]` class of the segment regex. -/
def isWordChar (c : Char) : Bool := c.isAlphanum || c = '_'

/-- Parses a `:name(pattern)` segment, modelling the match against
`^:([a-zA-Z0-9_]+)\((.*)\)$` in `RouteTrie.insert`: the name is the maximal
run of word characters after the colon (nonempty), followed immediately by
`(`, with the greedy `.*` capture reaching to a final `)`. -/
def parseRegexSegment (seg : String) : Option (String × String) :=
  match seg.toList with
  | ':' :: rest =>
      let name := rest.takeWhile isWordChar
      if name = [] then none
      else
        match rest.dropWhile isWordChar with
        | '(' :: mid =>
            if mid.getLast? = some ')' then
              some (String.mk name, String.mk mid.dropLast)
            else none
        | _ => none
  | _ => none

/-- Stable insertion of a regex child behind every entry whose pattern source
is at least as long; combined with `sortRegexChildren` this reproduces the
stable `Array.sort((a, b) => b.regex.source.length - a.regex.source.length)`. -/
def insertRegexSorted (e : String × String × TrieNode) :
    List (String × String × TrieNode) → List (String × String × TrieNode)
  | [] => [e]
  | x :: xs =>
      if e.1.length ≤ x.1.length then x :: insertRegexSorted e xs
      else e :: x :: xs

/-- Stable sort of the regex-child array by descending pattern length. -/
def sortRegexChildren (l : List (String × String × TrieNode)) :
    List (String × String × TrieNode) :=
  l.foldl (fun acc e => insertRegexSorted e acc) []

/-- Does a regex child with this pattern source and parameter name exist
(`regexChildren.find(rc => rc.regex.source === regexStr && rc.paramName === paramName)`)? -/
def hasRegexChild (source name : String) (l : List (String × String × TrieNode)) : Bool :=
  l.any (fun e => e.1 = source && e.2.1 = name)

/-- Replaces the node of the regex child keyed by pattern source and parameter
name, modelling in-place mutation of the found/pushed child object. -/
def updateRegexChild (source name : String) (k : TrieNode → TrieNode) :
    List (String × String × TrieNode) → List (String × String × TrieNode)
  | [] => []
  | (s, n, t) :: rest =>
      if s = source && n = name then (s, n, k t) :: rest
      else (s, n, t) :: updateRegexChild source name k rest

/-- Replaces the child stored under a literal segment, modelling in-place
mutation of the node obtained from `children.get(segment)`. -/
def updateChild (seg : String) (k : TrieNode → TrieNode) :
    List (String × TrieNode) → List (String × TrieNode)
  | [] => []
  | (s, t) :: rest =>
      if s = seg then (s, k t) :: rest else (s, t) :: updateChild seg k rest

/-- Stores the route in a node's method map together with the collected
depth-to-name table (`node.routes.set(route.method, { route, paramNames })`). -/
def setRouteAt (node : TrieNode) (r : Route) (paramNames : List (Nat × String)) : TrieNode :=
  match node with
  | .mk ch rx pc wc cac rts => .mk ch rx pc wc cac (setAssoc rts r.method ⟨r, paramNames⟩)

/-- The segment walk of `RouteTrie.insert`: builds child nodes per segment
kind, records `(depth, name)` for plain `:name` segments, and stops early —
discarding remaining segments — at `**`. -/
def insertGo (r : Route) : TrieNode → List String → Nat → List (Nat × String) → TrieNode
  | node, [], _i, paramNames => setRouteAt node r paramNames
  | node, seg :: rest, i, paramNames =>
      if seg = "**" then
        match node with
        | .mk ch rx pc wc cac rts =>
            .mk ch rx pc wc (some (setRouteAt (cac.getD emptyNode) r paramNames)) rts
      else if seg = "*" then
        match node with
        | .mk ch rx pc wc cac rts =>
            .mk ch rx pc (some (insertGo r (wc.getD emptyNode) rest (i + 1) paramNames)) cac rts
      else if startsWithStr seg ":" then
        match parseRegexSegment seg with
        | some (paramName, regexStr) =>
            match node with
            | .mk ch rx pc wc cac rts =>
                let rx1 := if hasRegexChild regexStr paramName rx then rx
                  else sortRegexChildren (rx ++ [(regexStr, paramName, emptyNode)])
                .mk ch
                  (updateRegexChild regexStr paramName
                    (fun t => insertGo r t rest (i + 1) paramNames) rx1)
                  pc wc cac rts
        | none =>
            let paramName := seg.drop 1
            match node with
            | .mk ch rx pc wc cac rts =>
                .mk ch rx
                  (some (insertGo r (pc.getD emptyNode) rest (i + 1)
                    (paramNames ++ [(i, paramName)])))
                  wc cac rts
      else
        match node with
        | .mk ch rx pc wc cac rts =>
            let ch1 := if (lookupAssoc ch seg).isSome then ch else ch ++ [(seg, emptyNode)]
            .mk (updateChild seg (fun t => insertGo r t rest (i + 1) paramNames) ch1)
              rx pc wc cac rts

namespace RouteTrie

/-- `RouteTrie.insert`: the defensive guard returns the trie unchanged when the
route argument is null/undefined or its `path` field is not a string. -/
def insert (root : TrieNode) (route : Option DynRoute) : TrieNode :=
  match route with
  | none => root
  | some r =>
      match r.path with
      | none => root
      | some p => insertGo ⟨r.method, p⟩ root (segmentize p) 0 []

end RouteTrie

/-- Convenience wrapper for inserting a well-formed route. -/
def insertR (root : TrieNode) (m : HttpMethod) (p : String) : TrieNode :=
  RouteTrie.insert root (some ⟨m, some p⟩)

/-- Value of a hexadecimal digit character, if any. -/
def hexDigit (c : Char) : Option Nat :=
  if '0' ≤ c ∧ c ≤ '9' then some (c.toNat - '0'.toNat)
  else if 'a' ≤ c ∧ c ≤ 'f' then some (c.toNat - 'a'.toNat + 10)
  else if 'A' ≤ c ∧ c ≤ 'F' then some (c.toNat - 'A'.toNat + 10)
  else none

/-- Percent-decoding on character lists.  Models the JS `decodeURIComponent`
builtin on single-byte escapes (the inputs arising in this development contain
no multi-byte UTF-8 escape sequences and no malformed escapes). -/
def decodeChars : List Char → List Char
  | '%' :: h :: l :: rest =>
      (match hexDigit h, hexDigit l with
       | some a, some b => Char.ofNat (16 * a + b) :: decodeChars rest
       | _, _ => '%' :: decodeChars (h :: l :: rest))
  | c :: rest => c :: decodeChars rest
  | [] => []

/-- Model of the JS `decodeURIComponent` builtin (see `decodeChars`). -/
def decodeURIComponent (s : String) : String := String.mk (decodeChars s.toList)

/-- The result of a trie lookup (`RouteMatch` in `RouteTrie.ts`); an absent
`allowed` field is `none`. -/
structure RouteMatch where
  route : Option Route
  allowed : Option (List HttpMethod)
  params : List (String × String)
  deriving DecidableEq, Repr

/-- The backtracking condition `match.route || (match.allowed && match.allowed.length > 0)`. -/
def usable (m : RouteMatch) : Bool :=
  m.route.isSome ||
    (match m.allowed with
     | some l => !l.isEmpty
     | none => false)

/-- Materializes the parameter map at a leaf: for each `(depth, name)` entry
the captured raw segment at that depth is percent-decoded and bound to the
name, later assignments overwriting earlier ones as for a JS object.  A depth
missing from the captures would read as JS `undefined`. -/
def buildParams (pn : List (Nat × String)) (cap : List (Nat × String)) :
    List (String × String) :=
  pn.foldl
    (fun acc dn =>
      setAssoc acc dn.2 (decodeURIComponent ((lookupAssoc cap dn.1).getD "undefined")))
    []

/-- The `index === segments.length` case of `RouteTrie.matchNode`: consult the
node's method map, falling back to a catch-all child matching the empty
remainder, and otherwise report the methods that would have matched. -/
def matchTerminal (method : HttpMethod) (node : TrieNode)
    (cap : List (Nat × String)) : RouteMatch :=
  match lookupAssoc node.routes method with
  | some info =>
      { route := some info.route, allowed := none,
        params := buildParams info.paramNames cap }
  | none =>
      match node.catchAllChild with
      | some ca =>
          (match lookupAssoc ca.routes method with
           | some info =>
               { route := some info.route, allowed := none, params := [("*", "")] }
           | none =>
               { route := none, allowed := some (ca.routes.map Prod.fst), params := [] })
      | none =>
          { route := none, allowed := some (node.routes.map Prod.fst), params := [] }

/-- Strategy 1 of `matchNode` (exact literal child), with the recursive descent
abstracted as `recurse`. -/
def tryStaticWith (recurse : TrieNode → List (Nat × String) → RouteMatch)
    (node : TrieNode) (seg : String) (cap : List (Nat × String)) : Option RouteMatch :=
  match lookupAssoc node.children seg with
  | some child =>
      let m := recurse child cap
      if usable m then some m else none
  | none => none

/-- Strategy 2 of `matchNode`: iterate the regex children in array order,
testing the raw segment against each compiled pattern (`compile source seg`
models `rc.regex.test(segment)`), and bind the decoded segment to the regex
parameter name on the first usable descent. -/
def regexLoop (compile : String → String → Bool) (seg : String)
    (recurse : TrieNode → RouteMatch) :
    List (String × String × TrieNode) → Option RouteMatch
  | [] => none
  | (source, pname, child) :: rest =>
      if compile source seg then
        let m := recurse child
        if usable m then
          some { m with params := setAssoc m.params pname (decodeURIComponent seg) }
        else regexLoop compile seg recurse rest
      else regexLoop compile seg recurse rest

/-- Strategy 3 of `matchNode` (the parameter child): record the raw segment at
the current depth for the descent; on a non-usable result the recording is
discarded (the JS `delete` of the just-added key). -/
def tryParamWith (recurse : TrieNode → List (Nat × String) → RouteMatch)
    (node : TrieNode) (seg : String) (idx : Nat)
    (cap : List (Nat × String)) : Option RouteMatch :=
  match node.paramChild with
  | some child =>
      let m := recurse child (setAssoc cap idx seg)
      if usable m then some m else none
  | none => none

/-- Strategy 4 of `matchNode` (the wildcard child): consumes one segment,
captures nothing. -/
def tryWildcardWith (recurse : TrieNode → List (Nat × String) → RouteMatch)
    (node : TrieNode) (cap : List (Nat × String)) : Option RouteMatch :=
  match node.wildcardChild with
  | some child =>
      let m := recurse child cap
      if usable m then some m else none
  | none => none

/-- Strategy 5 of `matchNode` (the catch-all child) together with the final
no-match result: the catch-all immediately claims all remaining segments as
its `*` parameter without further structural matching. -/
def catchAllFallback (method : HttpMethod) (node : TrieNode)
    (seg : String) (rest : List String) : RouteMatch :=
  match node.catchAllChild with
  | some ca =>
      let remainder := String.intercalate "/" (seg :: rest)
      (match lookupAssoc ca.routes method with
       | some info =>
           { route := some info.route, allowed := none,
             params := [("*", decodeURIComponent remainder)] }
       | none =>
           { route := none, allowed := some (ca.routes.map Prod.fst),
             params := [("*", decodeURIComponent remainder)] })
  | none => { route := none, allowed := none, params := [] }

/-- `RouteTrie.matchNode`: recursive traversal with explicit backtracking,
attempting the five strategies in their fixed order at each consumed segment.
`compile source seg` models `new RegExp(source).test(seg)`. -/
def matchNode (compile : String → String → Bool) (method : HttpMethod) :
    TrieNode → List String → Nat → List (Nat × String) → RouteMatch
  | node, [], _idx, cap => matchTerminal method node cap
  | node, seg :: rest, idx, cap =>
      match tryStaticWith
          (fun child cap' => matchNode compile method child rest (idx + 1) cap')
          node seg cap with
      | some m => m
      | none =>
          match regexLoop compile seg
              (fun child => matchNode compile method child rest (idx + 1) cap)
              node.regexChildren with
          | some m => m
          | none =>
              match tryParamWith
                  (fun child cap' => matchNode compile method child rest (idx + 1) cap')
                  node seg idx cap with
              | some m => m
              | none =>
                  match tryWildcardWith
                      (fun child cap' => matchNode compile method child rest (idx + 1) cap')
                      node cap with
                  | some m => m
                  | none => catchAllFallback method node seg rest

/-- Strategy 1 as invoked by `matchNode` at a given segment position. -/
def tryStatic (compile : String → String → Bool) (method : HttpMethod)
    (node : TrieNode) (seg : String) (rest : List String) (idx : Nat)
    (cap : List (Nat × String)) : Option RouteMatch :=
  tryStaticWith (fun child cap' => matchNode compile method child rest (idx + 1) cap')
    node seg cap

/-- Strategy 2 as invoked by `matchNode` at a given segment position. -/
def tryRegex (compile : String → String → Bool) (method : HttpMethod)
    (node : TrieNode) (seg : String) (rest : List String) (idx : Nat)
    (cap : List (Nat × String)) : Option RouteMatch :=
  regexLoop compile seg (fun child => matchNode compile method child rest (idx + 1) cap)
    node.regexChildren

/-- Strategy 3 as invoked by `matchNode` at a given segment position. -/
def tryParam (compile : String → String → Bool) (method : HttpMethod)
    (node : TrieNode) (seg : String) (rest : List String) (idx : Nat)
    (cap : List (Nat × String)) : Option RouteMatch :=
  tryParamWith (fun child cap' => matchNode compile method child rest (idx + 1) cap')
    node seg idx cap

/-- Strategy 4 as invoked by `matchNode` at a given segment position. -/
def tryWildcard (compile : String → String → Bool) (method : HttpMethod)
    (node : TrieNode) (_seg : String) (rest : List String) (idx : Nat)
    (cap : List (Nat × String)) : Option RouteMatch :=
  tryWildcardWith (fun child cap' => matchNode compile method child rest (idx + 1) cap')
    node cap

namespace RouteTrie

/-- `RouteTrie.find`: segment the path and match from the root. -/
def find (compile : String → String → Bool) (root : TrieNode)
    (path : String) (method : HttpMethod) : RouteMatch :=
  matchNode compile method root (segmentize path) 0 []

end RouteTrie

/-- Model of `new RegExp(source).test(seg)` for the pattern sources appearing
in this development: a JS regex `test` is an unanchored search, so `\d+`
succeeds exactly when the segment contains at least one ASCII digit. -/
def jsRegexTest (source seg : String) : Bool :=
  if source = "\\d+" then seg.toList.any Char.isDigit else false

/-!
Response shapes and the dispatch pipeline (`responseHelpers.ts`,
`defineRouter.ts`, `defineHandler.ts`).  The dispatcher itself only ever
builds `ResultResponse` values with a string body, so the embedding restricts
bodies to `Option String` (`none` is an absent/`undefined` body).
-/

/-- The `ResultResponse` record of `responseHelpers.ts`, restricted to
string-or-absent bodies. -/
structure ResultResponse where
  status : Nat
  body : Option String
  headers : List (String × String)
  deriving DecidableEq, Repr

/-- A native `Response` in the same restricted fragment. -/
structure JsResponse where
  status : Nat
  body : Option String
  headers : List (String × String)
  deriving DecidableEq, Repr

/-- `toAstroResponse` on a `ResultResponse` whose body is a string or absent:
an absent body becomes `new Response(null, {status, headers})`; a string body
is passed through and, not being JSON/binary, no content type is added. -/
def toAstroResponse (r : ResultResponse) : JsResponse :=
  match r.body with
  | none => { status := r.status, body := none, headers := r.headers }
  | some s => { status := r.status, body := some s, headers := r.headers }

/-- The `notFound` helper (status 404). -/
def notFound (body : String) : ResultResponse := ⟨404, some body, []⟩

/-- The `methodNotAllowed` helper (status 405) with explicit headers. -/
def methodNotAllowed (body : String) (headers : List (String × String)) : ResultResponse :=
  ⟨405, some body, headers⟩

/-- The `internalError` helper (status 500): the body is the error's message.
Errors are modelled by their message string throughout. -/
def internalError (msg : String) : ResultResponse := ⟨500, some msg, []⟩

/-- The `Allow` header enumeration `allowed.join(', ')`. -/
def joinMethods (l : List HttpMethod) : String :=
  String.intercalate ", " (l.map HttpMethod.toStr)

/-- Base-path normalization performed by `defineRouter` before any request:
default `/api`, a leading slash is added, a trailing slash is removed, and a
bare `/` collapses to the empty base path. -/
def normalizeBasePath (opt : Option String) : String :=
  let bp0 := opt.getD "/api"
  let bp1 := if bp0 ≠ "" ∧ ¬ startsWithStr bp0 "/" then "/" ++ bp0 else bp0
  let bp2 := if endsWithStr bp1 "/" ∧ bp1 ≠ "/" then bp1.dropRight 1 else bp1
  if bp2 = "/" then "" else bp2

/-- The character of `s` at index `i`, `none` when out of range (JS `charAt`
returns the empty string there). -/
def charAtOpt (s : String) (i : Nat) : Option Char := s.toList.get? i

/-- The base-path stripping step of the dispatcher (`defineRouter.ts`):
`some path` is the stripped path handed to the trie; `none` means the
dispatcher answers with the not-found result without consulting the trie
(prefix mismatch, or the character after the prefix is neither `/` nor
end-of-string). -/
def stripBasePath (basePath pathname : String) : Option String :=
  if basePath = "" then some pathname
  else if ¬ startsWithStr pathname basePath then none
  else
    match charAtOpt pathname basePath.length with
    | none => some (pathname.drop basePath.length)
    | some c => if c ≠ '/' then none else some (pathname.drop basePath.length)

/-- The routing decision of one dispatch (`defineRouter.ts` lines 137-173),
before the middleware chain runs. -/
inductive RouteOutcome where
  /-- Base-path check failed; the trie was never consulted. -/
  | notFoundNoLookup
  /-- A route matched; dispatch proceeds to the middleware chain. -/
  | matched (r : Route) (params : List (String × String))
  /-- Structural match without the method: a 405 with these allowed methods. -/
  | methodNotAllowedCase (allowed : List HttpMethod)
  /-- Nothing matched: a 404. -/
  | notFoundCase
  deriving DecidableEq, Repr

/-- Routing decision for a request: strip the base path, look up the trie,
and classify the match as in `defineRouter.ts`. -/
def dispatchRoute (compile : String → String → Bool) (root : TrieNode)
    (basePathOpt : Option String) (pathname : String) (method : HttpMethod) :
    RouteOutcome :=
  match stripBasePath (normalizeBasePath basePathOpt) pathname with
  | none => .notFoundNoLookup
  | some path =>
      let m := RouteTrie.find compile root path method
      match m.route with
      | some r => .matched r m.params
      | none =>
          match m.allowed with
          | some l => if !l.isEmpty then .methodNotAllowedCase l else .notFoundCase
          | none => .notFoundCase

/-- The response the dispatcher produces for a non-matched outcome
(`none` for a match, which instead proceeds to the middleware chain).
On 405 the dispatcher attaches the `Allow` header enumeration. -/
def outcomeResponse (onNotFound : Option ResultResponse) :
    RouteOutcome → Option JsResponse
  | .notFoundNoLookup => some (toAstroResponse (onNotFound.getD (notFound "Not Found")))
  | .notFoundCase => some (toAstroResponse (onNotFound.getD (notFound "Not Found")))
  | .methodNotAllowedCase l =>
      some (toAstroResponse (methodNotAllowed "Method Not Allowed"
        [("Allow", joinMethods l)]))
  | .matched _ _ => none

/-!
The middleware chain executor (`defineRouter.ts` lines 178-201) and the
two-layer error boundary (`defineRouter`'s catch plus `defineHandler`'s
catch).  Per the specified contract a middleware invokes its continuation
zero or one times, so a middleware is embedded by how it uses it.
-/

/-- A value a middleware or handler returns: either a native `Response` or a
structured result converted through `toAstroResponse`
(`res instanceof Response ? res : toAstroResponse(res)`). -/
inductive HVal where
  | resp (r : JsResponse)
  | result (r : ResultResponse)
  deriving DecidableEq, Repr

/-- The conversion the executor applies to a returned value. -/
def HVal.toResponse : HVal → JsResponse
  | .resp r => r
  | .result r => toAstroResponse r

/-- A middleware, embedded by its use of the continuation: it either returns
its own value without calling `next` (short-circuit), throws, or awaits
`next()` exactly once and computes its return value — possibly throwing —
from the continuation's response. -/
inductive Mw where
  | respond (v : HVal)
  | raiseErr (msg : String)
  | around (post : JsResponse → Except String HVal)

/-- Runs the chain from entry index `i` (the `next()` closure of
`defineRouter`): each middleware in turn, then the route handler as the
terminal step.  Returns the outcome (response, or uncaught error) together
with the trace of chain entries that ran, `none` marking the handler. -/
def runChainFrom (handler : Except String HVal) :
    Nat → List Mw → Except String JsResponse × List (Option Nat)
  | _i, [] =>
      (match handler with
       | .error e => (.error e, [none])
       | .ok v => (.ok v.toResponse, [none]))
  | i, .respond v :: _rest => (.ok v.toResponse, [some i])
  | i, .raiseErr e :: _rest => (.error e, [some i])
  | i, .around post :: rest =>
      match runChainFrom handler (i + 1) rest with
      | (.error e, tr) => (.error e, some i :: tr)
      | (.ok r, tr) =>
          match post r with
          | .error e => (.error e, some i :: tr)
          | .ok v => (.ok v.toResponse, some i :: tr)

/-- Runs the full middleware chain (`index = -1; await next()`). -/
def runChain (mws : List Mw) (handler : Except String HVal) :
    Except String JsResponse × List (Option Nat) :=
  runChainFrom handler 0 mws

/-- The dispatch-boundary error handling: `defineRouter`'s catch applies the
configured error producer; without one the error is rethrown and
`defineHandler`'s catch converts it via `internalError`.  The chain runs
exactly once — its trace is returned untouched. -/
def dispatchChain (onError : Option (String → HVal)) (mws : List Mw)
    (handler : Except String HVal) : JsResponse × List (Option Nat) :=
  let res := runChain mws handler
  match res.1 with
  | .ok r => (r, res.2)
  | .error e =>
      match onError with
      | some f => ((f e).toResponse, res.2)
      | none => (toAstroResponse (internalError e), res.2)

/-!
Group and builder middleware composition (`defineGroup.ts`,
`RouterBuilder.ts`).  Middlewares are tracked as opaque tokens; what matters
for the claims is the order in which the builder assembles them onto each
route.
-/

/-- A route record as `defineGroup`/`RouterBuilder` build it: method, composed
path, and the ordered middleware list attached to the route object. -/
structure GRoute where
  method : HttpMethod
  path : String
  middlewares : List Nat
  deriving DecidableEq, Repr

/-- The mutable state of a `RouteGroup`. -/
structure RouteGroup where
  basePath : String
  routes : List GRoute
  middlewares : List Nat
  deriving DecidableEq, Repr

/-- The `RouteGroup` constructor: trailing slash removed from the base path. -/
def RouteGroup.make (basePath : String) : RouteGroup :=
  ⟨if endsWithStr basePath "/" then basePath.dropRight 1 else basePath, [], []⟩

/-- `RouteGroup.use`: push the middleware onto the group list and also onto
the middleware list of every route already registered in the group. -/
def RouteGroup.use (g : RouteGroup) (m : Nat) : RouteGroup :=
  { g with
    middlewares := g.middlewares ++ [m],
    routes := g.routes.map (fun r => { r with middlewares := r.middlewares ++ [m] }) }

/-- `RouteGroup.add`: register a route under the group's base path whose
middleware list is the group middlewares so far followed by the
route-specific ones. -/
def RouteGroup.add (g : RouteGroup) (method : HttpMethod) (path : String)
    (mws : List Nat) : RouteGroup :=
  let normalizedPath := if startsWithStr path "/" then path else "/" ++ path
  { g with
    routes := g.routes ++
      [⟨method, g.basePath ++ normalizedPath, g.middlewares ++ mws⟩] }

/-- The mutable state of a `RouterBuilder`. -/
structure Builder where
  routes : List GRoute
  groups : List RouteGroup
  middlewares : List Nat
  deriving DecidableEq, Repr

/-- A fresh builder. -/
def Builder.make : Builder := ⟨[], [], []⟩

/-- `RouterBuilder.use`: append a global middleware. -/
def Builder.use (b : Builder) (m : Nat) : Builder :=
  { b with middlewares := b.middlewares ++ [m] }

/-- `RouterBuilder.addGroup`: record the group. -/
def Builder.addGroup (b : Builder) (g : RouteGroup) : Builder :=
  { b with groups := b.groups ++ [g] }

/-- `RouterBuilder.build` (lines 687-706): collect the builder's own routes
and every group's routes, then prepend the global middlewares to each route's
middleware list. -/
def Builder.buildRoutes (b : Builder) : List GRoute :=
  let allRoutes := b.routes ++ (b.groups.foldl (fun acc g => acc ++ g.routes) [])
  allRoutes.map (fun r => { r with middlewares := b.middlewares ++ r.middlewares })

/-!
Route validation (`defineRoute.ts`, `validateRoute`).  The method is taken as
a raw string because the runtime check guards against values outside the
`HttpMethod` enum.
-/

/-- The construction-time errors `validateRoute` can throw. -/
inductive ValidationError where
  | pathMustStartWithSlash
  | unsupportedMethod
  | catchAllNotAtEnd
  deriving DecidableEq, Repr

/-- The string values of `ALLOWED_HTTP_METHODS`. -/
def allowedMethodStrings : List String :=
  ["GET", "POST", "PUT", "DELETE", "PATCH", "OPTIONS"]

/-- `validateRoute`: path must start with `/`, the method must be in the
allowed set, and a path containing `**` must end with `**`.  An `error`
result models the synchronous throw at route-definition time. -/
def validateRoute (method : String) (path : String) : Except ValidationError Unit :=
  if ¬ startsWithStr path "/" then .error .pathMustStartWithSlash
  else if ¬ allowedMethodStrings.contains method then .error .unsupportedMethod
  else if includesStr path "**" ∧ ¬ endsWithStr path "**" then .error .catchAllNotAtEnd
  else .ok ()

/-- `defineRoute`: validation runs synchronously during construction; only a
validated route value is ever produced. -/
def defineRouteChecked (method : String) (path : String) (m : HttpMethod) :
    Except ValidationError Route :=
  match validateRoute method path with
  | .error e => .error e
  | .ok _ => .ok ⟨m, path⟩

/-!
Streaming writers (`stream.ts` lines 92-113 and
`internal/createJsonStreamRoute.ts` lines 79-124).  The output channel is the
ordered list of chunks enqueued to the `ReadableStream` controller; text
chunks are modelled as strings (`TextEncoder.encode` is injective on them).
The producer only starts after the stream's `start` callback has set the
controller, so `controllerRef` is always non-null here.
-/

/-- State of the raw `StreamWriter` of `stream.ts`. -/
structure StreamState where
  closed : Bool
  chunks : List String
  contentType : String
  deriving DecidableEq, Repr

/-- The SSE framing applied to string chunks when the content type is
`text/event-stream`. -/
def sseFrame (chunk : String) : String := "state: " ++ chunk ++ "\n\n"

/-- `StreamWriter.write`: a no-op once closed; otherwise enqueue the
(possibly SSE-framed) chunk. -/
def StreamState.write (st : StreamState) (chunk : String) : StreamState :=
  if st.closed then st
  else
    { st with
      chunks := st.chunks ++
        [if st.contentType = "text/event-stream" then sseFrame chunk else chunk] }

/-- `StreamWriter.close`: a no-op once closed; otherwise mark closed and close
the controller (which emits nothing). -/
def StreamState.close (st : StreamState) : StreamState :=
  if st.closed then st else { st with closed := true }

/-- `StreamWriter.setContentType`. -/
def StreamState.setContentType (st : StreamState) (t : String) : StreamState :=
  { st with contentType := t }

/-- State of the `JsonStreamWriter` of `createJsonStreamRoute.ts`. -/
structure JsonStreamState where
  isNDJSON : Bool
  closed : Bool
  first : Bool
  chunks : List String
  deriving DecidableEq, Repr

/-- `JsonStreamWriter.send`, taking the already-serialized JSON text of the
value (`JSON.stringify(value)`): newline-suffixed in NDJSON mode; bracketed
and comma-separated in array mode. -/
def JsonStreamState.send (st : JsonStreamState) (json : String) : JsonStreamState :=
  if st.closed then st
  else if st.isNDJSON then { st with chunks := st.chunks ++ [json ++ "\n"] }
  else if st.first then { st with chunks := st.chunks ++ ["[" ++ json], first := false }
  else { st with chunks := st.chunks ++ ["," ++ json] }

/-- `JsonStreamWriter.write`: raw chunk passthrough, a no-op once closed. -/
def JsonStreamState.write (st : JsonStreamState) (chunk : String) : JsonStreamState :=
  if st.closed then st else { st with chunks := st.chunks ++ [chunk] }

/-- `JsonStreamWriter.close`: a no-op once closed; in array mode the trailing
`]` is emitted only if at least one value was sent. -/
def JsonStreamState.close (st : JsonStreamState) : JsonStreamState :=
  if st.closed then st
  else if ¬ st.isNDJSON ∧ ¬ st.first then
    { st with chunks := st.chunks ++ ["]"], closed := true }
  else { st with closed := true }

/-!
Concrete fixtures used by the claims.
-/

/-- The five routes of the spec's priority example, inserted in order:
`/p/static`, `/p/:id(\d+)`, `/p/:id`, `/p/*`, `/**` (all `GET`). -/
def exampleTrie : TrieNode :=
  insertR (insertR (insertR (insertR (insertR emptyNode
    .GET "/p/static") .GET "/p/:id(\\d+)") .GET "/p/:id") .GET "/p/*") .GET "/**"

/-- A trie holding only the catch-all route `/static/**`. -/
def c5Trie : TrieNode := insertR emptyNode .GET "/static/**"

/-- The `static` child node of `c5Trie` — the catch-all's parent. -/
def c5Node : TrieNode := (lookupAssoc c5Trie.children "static").getD emptyNode

/-- A trie with `POST /x` registered before `GET /x`. -/
def c4Trie : TrieNode := insertR (insertR emptyNode .POST "/x") .GET "/x"

/-- The `x` child node of `c4Trie`. -/
def c4NodeX : TrieNode := (lookupAssoc c4Trie.children "x").getD emptyNode

/-- A trie with `POST /x` and the catch-all `GET /x/**` registered: the
structural node for `/x` holds `POST` and has a catch-all child holding
`GET`. -/
def c4TrieCA : TrieNode := insertR (insertR emptyNode .POST "/x") .GET "/x/**"

/-- The `x` child node of `c4TrieCA`. -/
def c4NodeXCA : TrieNode := (lookupAssoc c4TrieCA.children "x").getD emptyNode

/-- The catch-all child of the `x` node of `c4TrieCA`. -/
def c4CANode : TrieNode := c4NodeXCA.catchAllChild.getD emptyNode

/-- Rank of a method in the alphabetical order of the method names. -/
def HttpMethod.sortKey : HttpMethod → Nat
  | .DELETE => 0
  | .GET => 1
  | .OPTIONS => 2
  | .PATCH => 3
  | .POST => 4
  | .PUT => 5

/-- Insertion into an alphabetically sorted method list. -/
def insertMethodSorted (m : HttpMethod) : List HttpMethod → List HttpMethod
  | [] => [m]
  | x :: xs =>
      if x.sortKey ≤ m.sortKey then x :: insertMethodSorted m xs
      else m :: x :: xs

/-- Sorts a method list alphabetically by method name. -/
def sortMethods (l : List HttpMethod) : List HttpMethod :=
  l.foldl (fun acc m => insertMethodSorted m acc) []

/-- A middleware that awaits its continuation once and returns the
continuation's response unchanged. -/
def passMw : Mw := .around (fun r => .ok (.resp r))

/-- A middleware that returns its own value without invoking `next`. -/
def c6ShortMw : Mw := .respond (.result ⟨200, some "short", []⟩)

/-- An outer middleware that awaits its continuation and then replaces the
response with a different one. -/
def c6OuterMw : Mw := .around (fun _ => .ok (.result ⟨200, some "changed", []⟩))

/-- A chain whose second entry short-circuits while the first entry rewrites
the response after its continuation returns. -/
def c6Chain : List Mw := [c6OuterMw, c6ShortMw]

/-- A handler for the C6 scenario (it must never run). -/
def c6Handler : Except String HVal := .ok (.result ⟨200, some "handler", []⟩)

/-- A group that receives a route (with route-specific middleware `10`) first
and a group middleware `20` via `use` afterwards. -/
def c2GroupBad : RouteGroup := ((RouteGroup.make "/g").add .GET "/r" [10]).use 20

/-- A builder with global middleware `1` holding `c2GroupBad`. -/
def c2BuilderBad : Builder := (Builder.make.use 1).addGroup c2GroupBad

/-!
Theorems.  Shared helper lemmas come first, then one theorem per claim
(with witnesses and counterexamples where required).
-/

/-- Helper: an `around` middleware contributes its index to the trace and
defers to the rest of the chain. -/
theorem runChainFrom_around_snd (handler : Except String HVal) (i : Nat)
    (post : JsResponse → Except String HVal) (l : List Mw) :
    (runChainFrom handler i (.around post :: l)).2 =
      some i :: (runChainFrom handler (i + 1) l).2 := by
  simp only [runChainFrom]
  cases hres : runChainFrom handler (i + 1) l with
  | mk res tr =>
      cases res with
      | error e => rfl
      | ok r => cases hp : post r <;> simp [hp]

/-- Helper: one pass-through middleware forwards the rest of the chain's
response and prepends its own index to the trace. -/
theorem runChainFrom_passMw_cons (handler : Except String HVal) (i : Nat)
    (l : List Mw) :
    runChainFrom handler i (passMw :: l) =
      (match runChainFrom handler (i + 1) l with
       | (.error e, tr) => (.error e, some i :: tr)
       | (.ok r, tr) => (.ok r, some i :: tr)) := by
  show runChainFrom handler i (.around (fun r => .ok (.resp r)) :: l) = _
  cases hres : runChainFrom handler (i + 1) l with
  | mk res tr =>
      cases res with
      | error e => simp [runChainFrom, hres]
      | ok r => simp [runChainFrom, hres, HVal.toResponse]

/-- Helper: a chain of pass-through middlewares runs every entry in index
order, then the handler, and returns the handler's response. -/
theorem runChainFrom_pass (v : HVal) (n : Nat) : ∀ (i : Nat),
    runChainFrom (.ok v) i (List.replicate n passMw) =
      (.ok v.toResponse, (List.range' i n).map some ++ [none]) := by
  induction n with
  | zero => intro i; rfl
  | succ n ih =>
      intro i
      rw [List.replicate_succ, runChainFrom_passMw_cons, ih (i + 1),
        List.range'_succ i n 1]
      simp

/-- Helper: up to a short-circuiting middleware preceded only by `around`
middlewares, the trace consists of exactly the indices of the prefix and the
short-circuiting entry; no later entry and no handler appears. -/
theorem runChainFrom_around_shortcircuit : ∀ (pres : List Mw),
    (∀ mw ∈ pres, ∃ post, mw = .around post) →
    ∀ (i : Nat) (v : HVal) (rest : List Mw) (handler : Except String HVal),
      (runChainFrom handler i (pres ++ .respond v :: rest)).2 =
        (List.range' i (pres.length + 1)).map some := by
  intro pres
  induction pres with
  | nil =>
      intro _ i v rest handler
      simp [runChainFrom, List.range'_succ i 0 1]
  | cons mw pres ih =>
      intro h i v rest handler
      obtain ⟨post, hpost⟩ := h mw (by simp)
      subst hpost
      rw [List.cons_append, runChainFrom_around_snd,
        ih (fun m hm => h m (by simp [hm])) (i + 1) v rest handler]
      simp [List.range'_succ]

/-- Helper: a chain of pass-through middlewares in front of a
short-circuiting one yields the short-circuiter's converted value and runs
exactly the entries up to and including it. -/
theorem runChainFrom_pass_shortcircuit (v : HVal) (rest : List Mw)
    (handler : Except String HVal) (n : Nat) : ∀ (i : Nat),
    runChainFrom handler i (List.replicate n passMw ++ .respond v :: rest) =
      (.ok v.toResponse, (List.range' i (n + 1)).map some) := by
  induction n with
  | zero =>
      intro i
      simp [runChainFrom, List.range'_succ]
  | succ n ih =>
      intro i
      rw [List.replicate_succ, List.cons_append, runChainFrom_passMw_cons, ih (i + 1)]
      simp [List.range'_succ]

/-- Helper: `use` calls on a group with no routes yet only accumulate group
middlewares in order. -/
theorem foldl_group_use (gmws : List Nat) : ∀ (bp : String) (ms : List Nat),
    gmws.foldl RouteGroup.use ⟨bp, [], ms⟩ = ⟨bp, [], ms ++ gmws⟩ := by
  induction gmws with
  | nil => intro bp ms; simp
  | cons m gmws ih =>
      intro bp ms
      rw [List.foldl_cons]
      show gmws.foldl RouteGroup.use ⟨bp, [], ms ++ [m]⟩ = _
      rw [ih bp (ms ++ [m])]
      simp

/-- Helper: `use` calls on a builder accumulate global middlewares in order. -/
theorem foldl_builder_use (globals : List Nat) : ∀ (ms : List Nat),
    globals.foldl Builder.use ⟨[], [], ms⟩ = ⟨[], [], ms ++ globals⟩ := by
  induction globals with
  | nil => intro ms; simp
  | cons m globals ih =>
      intro ms
      rw [List.foldl_cons]
      show globals.foldl Builder.use ⟨[], [], ms ++ [m]⟩ = _
      rw [ih (ms ++ [m])]
      simp

/-- C1.  At every node and depth, `matchNode` attempts the five
segment-matching strategies in the fixed priority order: exact literal child,
then the regex children in their stored (specificity) order on the raw
segment, then the parameter child, then the wildcard child, then the
catch-all child — and with the routes `/p/static`, `/p/:id(\d+)`, `/p/:id`,
`/p/*`, `/**` all registered, `find` resolves `/p/static` to the static
route, `/p/123` to the regex route, `/p/abc` to the parameter route, and
`/other/path` to the catch-all route. -/
theorem c1_match_priority_order :
    (∀ (compile : String → String → Bool) (method : HttpMethod) (node : TrieNode)
       (seg : String) (rest : List String) (idx : Nat) (cap : List (Nat × String)),
       matchNode compile method node (seg :: rest) idx cap =
         (match tryStatic compile method node seg rest idx cap with
          | some m => m
          | none =>
            match tryRegex compile method node seg rest idx cap with
            | some m => m
            | none =>
              match tryParam compile method node seg rest idx cap with
              | some m => m
              | none =>
                match tryWildcard compile method node seg rest idx cap with
                | some m => m
                | none => catchAllFallback method node seg rest))
    ∧ RouteTrie.find jsRegexTest exampleTrie "/p/static" .GET =
        ⟨some ⟨.GET, "/p/static"⟩, none, []⟩
    ∧ RouteTrie.find jsRegexTest exampleTrie "/p/123" .GET =
        ⟨some ⟨.GET, "/p/:id(\\d+)"⟩, none, [("id", "123")]⟩
    ∧ RouteTrie.find jsRegexTest exampleTrie "/p/abc" .GET =
        ⟨some ⟨.GET, "/p/:id"⟩, none, [("id", "abc")]⟩
    ∧ RouteTrie.find jsRegexTest exampleTrie "/other/path" .GET =
        ⟨some ⟨.GET, "/**"⟩, none, [("*", "other/path")]⟩ :=
  ⟨fun _ _ _ _ _ _ _ => rfl, by decide, by decide, by decide, by decide⟩

/-- C5.  A registered catch-all `/static/**` matches any path extending its
parent by zero or more segments: `/static` matches with the implicit `*`
parameter bound to the empty string, `/static/a/b` matches with it bound to
`a/b`, and in general the parameter is the remaining segments joined by `/`
(percent-decoded, which is the identity on these inputs). -/
theorem c5_catchall_zero_or_more :
    RouteTrie.find jsRegexTest c5Trie "/static" .GET =
      ⟨some ⟨.GET, "/static/**"⟩, none, [("*", "")]⟩
    ∧ RouteTrie.find jsRegexTest c5Trie "/static/a/b" .GET =
        ⟨some ⟨.GET, "/static/**"⟩, none, [("*", "a/b")]⟩
    ∧ (∀ (compile : String → String → Bool) (rest : List String),
        matchNode compile .GET c5Node rest 1 [] =
          ⟨some ⟨.GET, "/static/**"⟩, none,
            [("*", decodeURIComponent (String.intercalate "/" rest))]⟩) := by
  refine ⟨by decide, by decide, ?_⟩
  intro compile rest
  cases rest with
  | nil => rfl
  | cons seg rest => rfl

/-- C9.  For both streaming writers, `close()` is idempotent — a second call
is a no-op leaving the whole state (in particular the emitted output)
unchanged — and `write()`/`send()` after `close()` are no-ops that emit
nothing; all operations are total, so no error is raised. -/
theorem c9_close_idempotent_write_after_close_noop :
    (∀ st : StreamState, st.close.close = st.close)
    ∧ (∀ (st : StreamState) (c : String), st.close.write c = st.close)
    ∧ (∀ st : JsonStreamState, st.close.close = st.close)
    ∧ (∀ (st : JsonStreamState) (c : String), st.close.write c = st.close)
    ∧ (∀ (st : JsonStreamState) (j : String), st.close.send j = st.close) := by
  refine ⟨?_, ?_, ?_, ?_, ?_⟩
  · intro st
    by_cases h : st.closed <;> simp [StreamState.close, h]
  · intro st c
    by_cases h : st.closed <;> simp [StreamState.close, StreamState.write, h]
  · intro st
    by_cases h : st.closed
    · simp [JsonStreamState.close, h]
    · by_cases h2 : st.isNDJSON = false ∧ st.first = false
      · simp [JsonStreamState.close, h, h2]
      · simp [JsonStreamState.close, h, h2]
  · intro st c
    by_cases h : st.closed
    · simp [JsonStreamState.close, JsonStreamState.write, h]
    · by_cases h2 : st.isNDJSON = false ∧ st.first = false
      · simp [JsonStreamState.close, JsonStreamState.write, h, h2]
      · simp [JsonStreamState.close, JsonStreamState.write, h, h2]
  · intro st j
    by_cases h : st.closed
    · simp [JsonStreamState.close, JsonStreamState.send, h]
    · by_cases h2 : st.isNDJSON = false ∧ st.first = false
      · simp [JsonStreamState.close, JsonStreamState.send, h, h2]
      · simp [JsonStreamState.close, JsonStreamState.send, h, h2]

/-- C10.  `RouteTrie.insert` called with a null/undefined route, or with a
route whose `path` field is not a string, returns (it is a total function, so
nothing is raised) leaving the trie unchanged, and therefore every subsequent
`find` returns exactly what it returned before the call. -/
theorem c10_insert_guard_frame :
    (∀ root : TrieNode, RouteTrie.insert root none = root)
    ∧ (∀ (root : TrieNode) (m : HttpMethod),
        RouteTrie.insert root (some ⟨m, none⟩) = root)
    ∧ (∀ (root : TrieNode) (compile : String → String → Bool)
         (path : String) (method : HttpMethod),
        RouteTrie.find compile (RouteTrie.insert root none) path method =
          RouteTrie.find compile root path method)
    ∧ (∀ (root : TrieNode) (m : HttpMethod) (compile : String → String → Bool)
         (path : String) (method : HttpMethod),
        RouteTrie.find compile (RouteTrie.insert root (some ⟨m, none⟩)) path method =
          RouteTrie.find compile root path method) :=
  ⟨fun _ => rfl, fun _ _ => rfl, fun _ _ _ _ => rfl, fun _ _ _ _ _ => rfl⟩

/-- C3.  An exception anywhere in the middleware chain or handler is caught
exactly once at the dispatch boundary: with a configured error producer its
(converted) result becomes the response, otherwise the response is the
generic 500 built by `internalError`; the chain's trace is passed through
untouched, so the chain is never re-executed; and a successful chain is not
intercepted at all. -/
theorem c3_error_boundary :
    (∀ (onError : Option (String → HVal)) (mws : List Mw)
       (handler : Except String HVal) (e : String) (tr : List (Option Nat)),
       runChain mws handler = (.error e, tr) →
       dispatchChain onError mws handler =
         ((match onError with
           | some f => (f e).toResponse
           | none => toAstroResponse (internalError e)), tr))
    ∧ (∀ (onError : Option (String → HVal)) (mws : List Mw)
         (handler : Except String HVal) (r : JsResponse) (tr : List (Option Nat)),
       runChain mws handler = (.ok r, tr) →
       dispatchChain onError mws handler = (r, tr))
    ∧ toAstroResponse (internalError "boom") = ⟨500, some "boom", []⟩ := by
  refine ⟨?_, ?_, rfl⟩
  · intro onError mws handler e tr h
    cases onError <;> simp [dispatchChain, h]
  · intro onError mws handler r tr h
    simp [dispatchChain, h]

/-- Witness for C3: a chain that throws, dispatched without an error
producer, yields the 500 response carrying the error's message. -/
theorem c3_error_boundary_witness :
    dispatchChain none [.raiseErr "boom"] (.ok (.result ⟨200, some "ok", []⟩)) =
      (⟨500, some "boom", []⟩, [some 0]) :=
  c3_error_boundary.1 none [.raiseErr "boom"] (.ok (.result ⟨200, some "ok", []⟩))
    "boom" [some 0] rfl

/-- Counterexample for C6: in the chain `[c6OuterMw, c6ShortMw]` the second
middleware returns without invoking its continuation, yet the request's
response is the outer middleware's rewritten response, not the
short-circuiting middleware's own value — so the claim's final clause fails
as stated (the short-circuit itself does hold: the handler never runs). -/
theorem c6_counterexample :
    (runChain c6Chain c6Handler).1 = .ok ⟨200, some "changed", []⟩
    ∧ (runChain c6Chain c6Handler).2 = [some 0, some 1]
    ∧ (⟨200, some "changed", []⟩ : JsResponse) ≠
        HVal.toResponse (.result ⟨200, some "short", []⟩) := by
  refine ⟨rfl, rfl, by decide⟩

/-- C6 (amended).  If some middleware returns without invoking its
continuation, no later middleware and no handler runs (the trace covers
exactly the entries up to and including it), and its converted return value
is the response produced at its position — in particular, whenever every
earlier middleware forwards its continuation's response unchanged, that value
becomes the request's response. -/
theorem c6_amended_shortcircuit :
    (∀ (pres : List Mw),
       (∀ mw ∈ pres, ∃ post, mw = .around post) →
       ∀ (v : HVal) (rest : List Mw) (handler : Except String HVal),
         (runChain (pres ++ .respond v :: rest) handler).2 =
           (List.range (pres.length + 1)).map some)
    ∧ (∀ (n : Nat) (v : HVal) (rest : List Mw) (handler : Except String HVal),
        runChain (List.replicate n passMw ++ .respond v :: rest) handler =
          (.ok v.toResponse, (List.range (n + 1)).map some)) := by
  constructor
  · intro pres h v rest handler
    rw [runChain, runChainFrom_around_shortcircuit pres h 0 v rest handler,
      List.range_eq_range']
  · intro n v rest handler
    rw [runChain, runChainFrom_pass_shortcircuit, List.range_eq_range']

/-- Witness for the amended C6: one pass-through middleware in front of a
short-circuiting one; the later entry and the handler never run. -/
theorem c6_amended_witness :
    (runChain ([passMw] ++ .respond (.result ⟨200, some "x", []⟩) :: [.raiseErr "late"])
      (.error "handler boom")).2 = [some 0, some 1] :=
  c6_amended_shortcircuit.1 [passMw]
    (by
      intro mw hm
      rw [List.mem_singleton] at hm
      exact ⟨fun r => .ok (.resp r), by rw [hm]; rfl⟩)
    (.result ⟨200, some "x", []⟩) [.raiseErr "late"] (.error "handler boom")

/-- Counterexample for C2: a group middleware attached via `use()` after the
route was added ends up after the route-specific middleware, so the built
chain is global ++ route-specific ++ group (`[1, 10, 20]`) rather than the
claimed global ++ group ++ route-specific (`[1, 20, 10]`). -/
theorem c2_counterexample :
    Builder.buildRoutes c2BuilderBad = [⟨.GET, "/g/r", [1, 10, 20]⟩]
    ∧ ([1, 10, 20] : List Nat) ≠ [1] ++ [20] ++ [10] := by decide

/-- C2 (amended).  When every group `use()` precedes the route's `add` (a
`use()` after the add instead appends behind the route-specific middleware),
the built route's middleware chain is exactly global middlewares, then group
middlewares, then route-specific middlewares, in order; and the executor runs
a chain's entries in index order with the handler as the terminal step. -/
theorem c2_amended_chain_order :
    (∀ (bp path : String) (method : HttpMethod) (gmws smws globals : List Nat),
       (Builder.buildRoutes ((globals.foldl Builder.use Builder.make).addGroup
           ((gmws.foldl RouteGroup.use (RouteGroup.make bp)).add method path smws))).map
         GRoute.middlewares = [globals ++ gmws ++ smws])
    ∧ (∀ (n : Nat) (v : HVal),
        runChain (List.replicate n passMw) (.ok v) =
          (.ok v.toResponse, (List.range n).map some ++ [none])) := by
  constructor
  · intro bp path method gmws smws globals
    rw [show RouteGroup.make bp =
          ⟨if endsWithStr bp "/" then bp.dropRight 1 else bp, [], []⟩ from rfl,
      foldl_group_use gmws _ [],
      show Builder.make = (⟨[], [], []⟩ : Builder) from rfl,
      foldl_builder_use globals []]
    simp [RouteGroup.add, Builder.addGroup, Builder.buildRoutes]
  · intro n v
    rw [runChain, runChainFrom_pass v n 0, List.range_eq_range']

/-- Counterexample for C4: with `POST /x` registered before `GET /x`, a `PUT`
lookup reports the allowed methods in registration order `[POST, GET]`, which
is not the sorted list `[GET, POST]`. -/
theorem c4_counterexample :
    RouteTrie.find jsRegexTest c4Trie "/x" .PUT = ⟨none, some [.POST, .GET], []⟩
    ∧ sortMethods [.POST, .GET] = [.GET, .POST]
    ∧ ([HttpMethod.POST, .GET] : List HttpMethod) ≠ [.GET, .POST] := by decide

/-- C4 (amended).  A structural node holding routes for other methods but not
the requested one yields a 405 outcome whose allowed-method list is in
registration (insertion) order, not sorted: it is the methods registered at
that node when the node has no catch-all child, while a node with a catch-all
child that also lacks the method instead reports the catch-all child's
registered methods (so `POST /x` plus `GET /x/**` makes `PUT /x` carry
`[GET]`); the dispatcher attaches the enumeration, joined by `, `, as the
`Allow` header. -/
theorem c4_amended_allowed_registration_order :
    (∀ (node : TrieNode) (method : HttpMethod) (cap : List (Nat × String)),
       node.catchAllChild = none →
       lookupAssoc node.routes method = none →
       matchTerminal method node cap =
         ⟨none, some (node.routes.map Prod.fst), []⟩)
    ∧ (∀ (node ca : TrieNode) (method : HttpMethod) (cap : List (Nat × String)),
       node.catchAllChild = some ca →
       lookupAssoc node.routes method = none →
       lookupAssoc ca.routes method = none →
       matchTerminal method node cap =
         ⟨none, some (ca.routes.map Prod.fst), []⟩)
    ∧ (∀ (l : List HttpMethod) (onNotFound : Option ResultResponse),
        outcomeResponse onNotFound (.methodNotAllowedCase l) =
          some ⟨405, some "Method Not Allowed", [("Allow", joinMethods l)]⟩)
    ∧ dispatchRoute jsRegexTest c4Trie (some "") "/x" .PUT =
        .methodNotAllowedCase [.POST, .GET]
    ∧ RouteTrie.find jsRegexTest c4TrieCA "/x" .PUT = ⟨none, some [.GET], []⟩
    ∧ dispatchRoute jsRegexTest c4TrieCA (some "") "/x" .PUT =
        .methodNotAllowedCase [.GET]
    ∧ outcomeResponse none (.methodNotAllowedCase [.POST, .GET]) =
        some ⟨405, some "Method Not Allowed", [("Allow", "POST, GET")]⟩ := by
  refine ⟨?_, ?_, fun _ _ => rfl, by decide, by decide, by decide, by decide⟩
  · intro node method cap h1 h2
    simp [matchTerminal, h1, h2]
  · intro node ca method cap h1 h2 h3
    simp [matchTerminal, h1, h2, h3]

/-- Witness for the amended C4: the node for `/x` in `c4Trie` has no
catch-all child and no `PUT` route, so the terminal match reports the
registration-order method list; the node for `/x` in `c4TrieCA` has a
catch-all child without a `PUT` route, so the catch-all child's methods are
reported instead. -/
theorem c4_amended_witness :
    matchTerminal .PUT c4NodeX [] = ⟨none, some [.POST, .GET], []⟩
    ∧ matchTerminal .PUT c4NodeXCA [] = ⟨none, some [.GET], []⟩ :=
  ⟨c4_amended_allowed_registration_order.1 c4NodeX .PUT [] rfl rfl,
   c4_amended_allowed_registration_order.2.1 c4NodeXCA c4CANode .PUT [] rfl rfl rfl⟩

/-- C7.  A pathname that extends the configured base path with a character
other than `/` (e.g. `/apiusers` against `/api`) fails the segment-boundary
check: the base path is not stripped and the dispatcher produces the
not-found result without consulting the trie; when the next character is `/`
or the end of the string, the base path is stripped before lookup. -/
theorem c7_base_path_boundary :
    (∀ (bp pathname : String) (c : Char),
       bp ≠ "" → startsWithStr pathname bp = true →
       charAtOpt pathname bp.length = some c → c ≠ '/' →
       stripBasePath bp pathname = none)
    ∧ (∀ (bp pathname : String),
       bp ≠ "" → startsWithStr pathname bp = true →
       charAtOpt pathname bp.length = some '/' →
       stripBasePath bp pathname = some (pathname.drop bp.length))
    ∧ (∀ (bp pathname : String),
       bp ≠ "" → startsWithStr pathname bp = true →
       charAtOpt pathname bp.length = none →
       stripBasePath bp pathname = some (pathname.drop bp.length))
    ∧ (∀ (compile : String → String → Bool) (root : TrieNode)
         (basePathOpt : Option String) (pathname : String) (method : HttpMethod),
       stripBasePath (normalizeBasePath basePathOpt) pathname = none →
       dispatchRoute compile root basePathOpt pathname method = .notFoundNoLookup)
    ∧ normalizeBasePath (some "/api") = "/api"
    ∧ stripBasePath "/api" "/apiusers" = none
    ∧ dispatchRoute jsRegexTest exampleTrie (some "/api") "/apiusers" .GET =
        .notFoundNoLookup
    ∧ stripBasePath "/api" "/api/p/static" = some "/p/static"
    ∧ stripBasePath "/api" "/api" = some "" := by
  refine ⟨?_, ?_, ?_, ?_, by decide, by decide, by decide, by decide, by decide⟩
  · intro bp pathname c h1 h2 h3 h4
    simp [stripBasePath, h1, h2, h3, h4]
  · intro bp pathname h1 h2 h3
    simp [stripBasePath, h1, h2, h3]
  · intro bp pathname h1 h2 h3
    simp [stripBasePath, h1, h2, h3]
  · intro compile root basePathOpt pathname method h
    simp [dispatchRoute, h]

/-- Witness for C7: `/apiusers` against base path `/api` (next character `u`)
is rejected without stripping. -/
theorem c7_base_path_boundary_witness :
    stripBasePath "/api" "/apiusers" = none :=
  c7_base_path_boundary.1 "/api" "/apiusers" 'u' (by decide) (by decide)
    (by decide) (by decide)

/-- Counterexample for C8: the path `/a/**/b/**` contains `**` as a non-final
segment, yet `validateRoute` accepts it because the check only requires a
path containing `**` to end with `**`. -/
theorem c8_counterexample :
    validateRoute "GET" "/a/**/b/**" = .ok ()
    ∧ ((segmentize "/a/**/b/**").dropLast.contains "**") = true := by decide

/-- C8 (amended).  Route construction rejects — synchronously, at
route-definition time, never deferred to lookup — exactly those patterns that
contain `**` but do not end with `**` (so a pattern ending in `**` is always
accepted, even if another `**` occurs earlier). -/
theorem c8_amended_catchall_check :
    (∀ (method path : String),
       startsWithStr path "/" = true →
       allowedMethodStrings.contains method = true →
       (validateRoute method path = .error .catchAllNotAtEnd ↔
         (includesStr path "**" = true ∧ endsWithStr path "**" = false)))
    ∧ validateRoute "GET" "/a/**/b" = .error .catchAllNotAtEnd
    ∧ validateRoute "GET" "/static/**" = .ok ()
    ∧ (∀ (method path : String) (m : HttpMethod) (e : ValidationError),
        validateRoute method path = .error e →
        defineRouteChecked method path m = .error e) := by
  refine ⟨?_, by decide, by decide, ?_⟩
  · intro method path h1 h2
    have h2m : method ∈ allowedMethodStrings := by simpa using h2
    constructor
    · intro h
      by_cases hinc : includesStr path "**" = true
      · by_cases hend : endsWithStr path "**" = true
        · exfalso
          simp [validateRoute, h1, h2m, hinc, hend] at h
        · exact ⟨hinc, by simpa using hend⟩
      · exfalso
        simp [validateRoute, h1, h2m, hinc] at h
    · rintro ⟨hinc, hend⟩
      simp [validateRoute, h1, h2m, hinc, hend]
  · intro method path m e h
    simp [defineRouteChecked, h]

/-- Witness for the amended C8: the characterization applied to `/a/**/b`. -/
theorem c8_amended_witness :
    validateRoute "GET" "/a/**/b" = .error .catchAllNotAtEnd ↔
      (includesStr "/a/**/b" "**" = true ∧ endsWithStr "/a/**/b" "**" = false) :=
  c8_amended_catchall_check.1 "GET" "/a/**/b" (by decide) (by decide)

end AstroRoutify
